import Mathlib

/-!
Shallow embedding of the bulk-image-trans session/orchestration layer
(app.py, src/file_management/file_manager.py, src/ocr/text_extractor.py,
src/translation/translator.py), with theorems settling the spec claims.

Timestamps are modelled as integers in hours (the retention unit of the
source); paths and session ids are strings; the filesystem trees
`uploads/` and `output/` are modelled as listings of named directory
entries carrying a size, a creation time, and an oracle bit saying
whether `shutil.rmtree` on them raises.
-/

namespace BulkImageTrans

/-! String helpers mirroring the Python str methods the source uses,
implemented over character lists so that they compute by kernel
reduction. -/

def splitCharList (c : Char) : List Char → List (List Char)
  | [] => [[]]
  | x :: xs =>
    match splitCharList c xs with
    | [] => [[]]
    | h :: t => if x = c then [] :: h :: t else (x :: h) :: t

/-- Python `s.split(c)` for a one-character separator. -/
def splitOnChar (c : Char) (s : String) : List String :=
  (splitCharList c s.toList).map (fun l => String.mk l)

/-- Python `s.lower()`. -/
def toLowerStr (s : String) : String :=
  String.mk (s.toList.map Char.toLower)

/-- Python `s.strip()`. -/
def stripStr (s : String) : String :=
  String.mk (((s.toList.dropWhile Char.isWhitespace).reverse.dropWhile
    Char.isWhitespace).reverse)

/-- Python `sep.join(parts)`. -/
def joinSep (sep : String) : List String → String
  | [] => ""
  | [x] => x
  | x :: xs => x ++ sep ++ joinSep sep xs

/-! Data model (the Session record written by FileManager.register_session). -/

structure FileInfo where
  original_name : String
  path : String
deriving DecidableEq, Repr

structure Settings where
  ocr_languages : List String
  target_language : String
  use_gpu : Bool
deriving DecidableEq, Repr

structure CompletedFile where
  original_name : String
  output_path : String
  completed_at : Int
  download_url : String
deriving DecidableEq, Repr

structure SessionData where
  session_id : String
  created_at : Int
  files : List FileInfo
  settings : Settings
  status : String
  completed_files : List CompletedFile
  output_files : List String
  updated_at : Option Int
deriving DecidableEq, Repr

/-- The in-memory `self.metadata` dict of FileManager: an insertion-ordered
mapping from session id to record, as a Python dict is. -/
abbrev Metadata := List (String × SessionData)

def dictLookup (m : Metadata) (k : String) : Option SessionData :=
  (m.find? (fun p => p.1 = k)).map (fun p => p.2)

def dictContains (m : Metadata) (k : String) : Bool :=
  m.any (fun p => p.1 = k)

/-- Python `d[k] = v`: overwrite in place when the key exists, append otherwise. -/
def dictSet (m : Metadata) (k : String) (v : SessionData) : Metadata :=
  if dictContains m k then m.map (fun p => if p.1 = k then (k, v) else p)
  else m ++ [(k, v)]

/-- Python `del d[k]`. -/
def dictDelete (m : Metadata) (k : String) : Metadata :=
  m.filter (fun p => p.1 ≠ k)

structure FileManagerState where
  metadata : Metadata
  max_age_hours : Int
deriving DecidableEq, Repr

/-- Basename of a path, as `os.path.basename` on forward-slash paths. -/
def basename (p : String) : String :=
  (splitOnChar (Char.ofNat 47) p).getLastD ""

/-- FileManager.register_session: builds a fresh record and assigns it into
the metadata dict unconditionally (there is no duplicate-id check in the
source). Returns the new state and the record, as the method does. -/
def register_session (fm : FileManagerState) (now : Int) (session_id : String)
    (files : List FileInfo) (settings : Settings) : FileManagerState × SessionData :=
  let session_data : SessionData :=
    { session_id := session_id
      created_at := now
      files := files
      settings := settings
      status := "processing"
      completed_files := []
      output_files := []
      updated_at := none }
  ({ fm with metadata := dictSet fm.metadata session_id session_data }, session_data)

/-- FileManager.update_session_status: no-op when the id is absent. -/
def update_session_status (fm : FileManagerState) (now : Int)
    (session_id status : String) : FileManagerState :=
  match dictLookup fm.metadata session_id with
  | none => fm
  | some s =>
      let updated : SessionData := { s with status := status, updated_at := some now }
      { fm with metadata := dictSet fm.metadata session_id updated }

/-- FileManager.add_completed_file: appends a completed-file record when the
session id is present, no-op otherwise. -/
def add_completed_file (fm : FileManagerState) (now : Int)
    (session_id original_name output_path : String) : FileManagerState :=
  match dictLookup fm.metadata session_id with
  | none => fm
  | some s =>
      let completed_file : CompletedFile :=
        { original_name := original_name
          output_path := output_path
          completed_at := now
          download_url := "/output/" ++ session_id ++ "/" ++ basename output_path }
      let updated : SessionData :=
        { s with completed_files := s.completed_files ++ [completed_file],
                 updated_at := some now }
      { fm with metadata := dictSet fm.metadata session_id updated }

/-- FileManager.get_session_info. -/
def get_session_info (fm : FileManagerState) (session_id : String) : Option SessionData :=
  dictLookup fm.metadata session_id

/-! Upload-time language handling (app.py). -/

/-- app.py `adjust_ocr_languages`, translated branch for branch: the
returns inside the Chinese `if` exit, anything else falls through to the
English check, then to pass-through. -/
def adjust_ocr_languages (languages : List String) : List String :=
  if languages.any (fun lang => lang = "ch_sim" || lang = "ch_tra") then
    if languages.contains "ch_sim" then ["ch_sim", "en"]
    else if languages.contains "ch_tra" then ["ch_tra", "en"]
    else if languages.contains "en" then ["en"]
    else languages
  else if languages.contains "en" then ["en"]
  else languages

def ALLOWED_EXTENSIONS : List String := ["png", "jpg", "jpeg", "bmp", "tiff"]

/-- app.py `allowed_file`: a dot must occur, and the piece after the last
dot, lowercased, must be an allowed extension. -/
def allowed_file (filename : String) : Bool :=
  let parts := splitOnChar (Char.ofNat 46) filename
  decide (parts.length ≥ 2) && ALLOWED_EXTENSIONS.contains (toLowerStr (parts.getLastD ""))

/-- The `language_mapping` dict lookup in upload_files, with the raw value
as the default. -/
def language_mapping (raw : String) : String :=
  if raw = "chinese" then "ch_sim"
  else if raw = "zh" then "ch_sim"
  else if raw = "english" then "en"
  else if raw = "en" then "en"
  else raw

/-- `settings.get('ocr_languages', 'en').split(',')[0].strip()`. -/
def parse_raw_language (setting : Option String) : String :=
  stripStr ((splitOnChar (Char.ofNat 44) (setting.getD "en")).headD "")

/-- One multipart upload request: whether the form carries a `files` field,
the file names it carries, and the raw settings strings. `secure_filename`
(an external sanitizer) is modelled as the identity. -/
structure UploadRequest where
  has_files_field : Bool
  filenames : List String
  ocr_languages_setting : Option String
  target_language_setting : Option String
  use_gpu_setting : Option String
deriving DecidableEq, Repr

structure UploadOk where
  session_id : String
  file_count : Nat
deriving DecidableEq, Repr

/-- app.py `upload_files`. Returns the HTTP result plus the updated
FileManager state and `processing_sessions` key list. Files failing
`allowed_file` are silently skipped; a session is registered in every
non-rejected case, uuid generation is modelled by the `new_session_id`
argument. -/
def upload_files (req : UploadRequest) (new_session_id : String) (now : Int)
    (fm : FileManagerState) (procSessions : List String) :
    Except (String × Nat) UploadOk × FileManagerState × List String :=
  if !req.has_files_field then
    (Except.error ("no files selected", 400), fm, procSessions)
  else
    let uploaded_files : List FileInfo :=
      (req.filenames.filter allowed_file).map
        (fun fn => { original_name := fn,
                     path := "uploads/" ++ new_session_id ++ "/" ++ fn })
    let raw_language := parse_raw_language req.ocr_languages_setting
    let ocr_language := language_mapping (toLowerStr raw_language)
    let ocr_languages := adjust_ocr_languages [ocr_language]
    let settings : Settings :=
      { ocr_languages := ocr_languages
        target_language := req.target_language_setting.getD "Japanese"
        use_gpu := toLowerStr (req.use_gpu_setting.getD "true") = "true" }
    let (fm1, _) := register_session fm now new_session_id uploaded_files settings
    (Except.ok { session_id := new_session_id, file_count := uploaded_files.length },
     fm1, procSessions ++ [new_session_id])

/-! Retention sweep (FileManager.cleanup_old_files). The two artifact trees
are listings of directory entries; `deleteFails` is the oracle telling
whether `shutil.rmtree` raises on that directory. -/

structure DirEntry where
  name : String
  size : Nat
  ctime : Int
  deleteFails : Bool
deriving DecidableEq, Repr

abbrev DirListing := List DirEntry

/-- `os.path.exists` on `<root>/<name>`. -/
def existsDir (entries : DirListing) (name : String) : Bool :=
  (entries.find? (fun e => e.name = name)).isSome

/-- FileManager._get_dir_size: walks the directory; a path that no longer
exists contributes nothing, so the size of a deleted directory is 0. -/
def get_dir_size (entries : DirListing) (name : String) : Nat :=
  match entries.find? (fun e => e.name = name) with
  | some e => e.size
  | none => 0

/-- `shutil.rmtree`: raises when the oracle marks the directory as
undeletable (locked), otherwise removes it. -/
def rmtree (entries : DirListing) (name : String) : Except String DirListing :=
  match entries.find? (fun e => e.name = name) with
  | none => Except.error ("no such directory: " ++ name)
  | some e =>
      if e.deleteFails then Except.error ("cannot delete " ++ name)
      else Except.ok (entries.filter (fun x => x.name ≠ name))

structure CleanupResult where
  deleted_sessions : List String
  deleted_files : List String
  freed_space : Nat
  errors : List String
deriving DecidableEq, Repr

def emptyCleanupResult : CleanupResult :=
  { deleted_sessions := [], deleted_files := [], freed_space := 0, errors := [] }

def cleanupErrorMsg (session_id e : String) : String :=
  "error while cleaning session " ++ session_id ++ ": " ++ e

/-- One `if os.path.exists(dir): if not dry_run: shutil.rmtree(dir); size =
self._get_dir_size(dir); result[freed_space] += size` block of
cleanup_old_files. Note that, as in the source, the size is measured after
the tree has been removed. -/
def deleteSessionDir (dry_run : Bool) (entries : DirListing) (name : String)
    (freed : Nat) : Except String (DirListing × Nat) :=
  if existsDir entries name then
    if !dry_run then
      match rmtree entries name with
      | Except.error e => Except.error e
      | Except.ok entries1 => Except.ok (entries1, freed + get_dir_size entries1 name)
    else Except.ok (entries, freed)
  else Except.ok (entries, freed)

/-- State threaded through the per-session loop of cleanup_old_files. -/
structure CState where
  metadata : Metadata
  uploads : DirListing
  output : DirListing
  result : CleanupResult
deriving DecidableEq, Repr

/-- Body of the `for session_id in sessions_to_delete` loop: delete the two
directories inside a try block; on an exception record the error and move
on; on success record the deleted session and (unless dry) drop the
record. -/
def cleanupOneSession (dry_run : Bool) (st : CState) (session_id : String) : CState :=
  match deleteSessionDir dry_run st.uploads session_id st.result.freed_space with
  | Except.error e =>
      { st with result :=
          { st.result with errors := st.result.errors ++ [cleanupErrorMsg session_id e] } }
  | Except.ok (up1, freed1) =>
      match deleteSessionDir dry_run st.output session_id freed1 with
      | Except.error e =>
          let res1 : CleanupResult :=
            { st.result with freed_space := freed1,
                             errors := st.result.errors ++ [cleanupErrorMsg session_id e] }
          { st with uploads := up1, result := res1 }
      | Except.ok (out1, freed2) =>
          let res2 : CleanupResult :=
            { st.result with freed_space := freed2,
                             deleted_sessions := st.result.deleted_sessions ++ [session_id] }
          { metadata := if dry_run then st.metadata else dictDelete st.metadata session_id
            uploads := up1
            output := out1
            result := res2 }

def sessionPhase (dry_run : Bool) (toDelete : List String) (st : CState) : CState :=
  toDelete.foldl (cleanupOneSession dry_run) st

/-- Body of the orphan loops of _cleanup_orphaned_directories, for one
listed directory name: a directory absent from the metadata and older than
the cutoff is removed; an rmtree exception there is only logged — the
source appends nothing to the report errors — and the loop continues. -/
def orphanStep (dry_run : Bool) (ids : List String) (root : String) (cutoff : Int)
    (st : DirListing × CleanupResult) (e : DirEntry) : DirListing × CleanupResult :=
  if ids.contains e.name then st
  else if e.ctime < cutoff then
    if !dry_run then
      if e.deleteFails then st
      else
        let entries1 := st.1.filter (fun x => x.name ≠ e.name)
        (entries1,
         { st.2 with freed_space := st.2.freed_space + get_dir_size entries1 e.name,
                     deleted_files := st.2.deleted_files ++ [root ++ e.name] })
    else st
  else st

def orphanPhase (dry_run : Bool) (ids : List String) (root : String) (cutoff : Int)
    (init : DirListing × CleanupResult) (listing : DirListing) : DirListing × CleanupResult :=
  listing.foldl (orphanStep dry_run ids root cutoff) init

structure CleanupOutcome where
  fm : FileManagerState
  uploads : DirListing
  output : DirListing
  result : CleanupResult
deriving DecidableEq, Repr

/-- FileManager.cleanup_old_files: expire sessions older than
`now - max_age_hours`, then sweep both trees for orphaned directories
(checked against the metadata as already mutated by the first phase,
iterating over the listings as they stood after that phase). -/
def cleanup_old_files (fm : FileManagerState) (now : Int)
    (uploads output : DirListing) (dry_run : Bool) : CleanupOutcome :=
  let cutoff := now - fm.max_age_hours
  let sessions_to_delete :=
    (fm.metadata.filter (fun p => p.2.created_at < cutoff)).map (fun p => p.1)
  let st1 := sessionPhase dry_run sessions_to_delete
    { metadata := fm.metadata, uploads := uploads, output := output,
      result := emptyCleanupResult }
  let ids := st1.metadata.map (fun p => p.1)
  let sweepUp := orphanPhase dry_run ids "uploads/" cutoff (st1.uploads, st1.result) st1.uploads
  let sweepOut := orphanPhase dry_run ids "output/" cutoff (st1.output, sweepUp.2) st1.output
  { fm := { fm with metadata := st1.metadata }, uploads := sweepUp.1,
    output := sweepOut.1, result := sweepOut.2 }

/-! Pipeline stages (app.py ImageTranslationPipeline, src/ocr/text_extractor.py,
src/translation/translator.py). The external models (EasyOCR, OpenCV, the
Gemini API) are black boxes, supplied as per-file oracles. -/

structure Region where
  text : String
  bbox : Nat
deriving DecidableEq, Repr

deriving instance DecidableEq for Except

/-- External-stage outcomes for one input image: whether the two
`cv2.imread` calls succeed, what `reader.readtext` does, and whether the
eraser and renderer raise. -/
structure StageOracle where
  imread_ok : Bool
  readtext : Except String (List Region)
  imread2_ok : Bool
  inpaint : Except String Unit
  render : Except String Unit
deriving DecidableEq, Repr

/-- TextExtractor.extract_text: an unreadable image raises ValueError and a
failing reader raises too, but the method catches every exception itself
and returns the empty list; recognized text is stripped. -/
def extract_text (o : StageOracle) : List Region :=
  if o.imread_ok then
    match o.readtext with
    | Except.ok results => results.map (fun r => { r with text := stripStr r.text })
    | Except.error _ => []
  else []

/-- The method names class GeminiTranslator actually defines in
translator.py. -/
def geminiTranslatorMethods : List String :=
  ["__init__", "_initialize_model", "translate_text", "bulk_translate_json",
   "bulk_translate_simple"]

/-- Python attribute lookup on a GeminiTranslator instance. -/
def hasTranslatorMethod (name : String) : Bool :=
  geminiTranslatorMethods.contains name

/-- One entry of a parsed Gemini bulk-translation response. -/
structure TranslationItem where
  id : Nat
  translated_text : String
deriving DecidableEq, Repr

/-- GeminiTranslator.bulk_translate_json: the `response` oracle is the
parsed reply (`none` for an API error, a JSON parse error or a bad
format, all of which the method maps to an empty translations list). -/
def bulk_translate_json (response : Option (List TranslationItem))
    (texts : List String) : List TranslationItem :=
  if texts.isEmpty then []
  else match response with
       | some items => items
       | none => []

/-- Python `sorted(translations, key=lambda x: x[id])`: a stable sort. -/
def sortById (items : List TranslationItem) : List TranslationItem :=
  items.mergeSort (fun a b => a.id ≤ b.id)

/-- GeminiTranslator.bulk_translate_simple: sort the response items by id
and project the translated texts; echo the source texts when the bulk call
produced no translations. -/
def bulk_translate_simple (response : Option (List TranslationItem))
    (texts : List String) : List String :=
  let translations := bulk_translate_json response texts
  if !translations.isEmpty then (sortById translations).map (fun t => t.translated_text)
  else texts

/-- Progress/error/completion notifications pushed over the socket. Stage
progress events carry no current_file/total_files fields; the per-file
start event emitted by the background loop does. -/
inductive Event where
  | progress (session_id message : String) (pct : Nat) (completed : Bool)
      (current_file total_files : Option Nat)
  | error (session_id message : String)
  | processing_complete (session_id message : String)
      (download_links : List CompletedFile) (output_folder : String)
deriving DecidableEq, Repr

def attributeErrorMsg : String :=
  "AttributeError: GeminiTranslator object has no attribute translate_texts"

structure TextDatum where
  text : String
  bbox : Nat
deriving DecidableEq, Repr

/-- ImageTranslationPipeline.process_single_image: returns the events it
emits in order and its success flag. The translation step invokes
`self.translator.translate_texts`, an attribute class GeminiTranslator
does not define, so Python raises AttributeError there and control lands
in the closing except handler, which emits an `error` event and returns
False; the later stages are translated as the dead branch guarded by the
attribute lookup. -/
def process_single_image (o : StageOracle) (response : Option (List TranslationItem))
    (target_language session_id : String) : List Event × Bool :=
  let extracted_texts := extract_text o
  if extracted_texts.isEmpty then ([], false)
  else
    let ev25 := Event.progress session_id
      ("text detection done: " ++ toString extracted_texts.length ++ " regions")
      25 false none none
    let original_texts := extracted_texts.map (fun r => r.text)
    if hasTranslatorMethod "translate_texts" then
      let translated_texts := bulk_translate_simple response original_texts
      let _ := target_language
      let ev50 := Event.progress session_id "translation done" 50 false none none
      if !o.imread2_ok then ([ev25, ev50], false)
      else
        match o.inpaint with
        | Except.error e =>
            ([ev25, ev50, Event.error session_id ("processing error: " ++ e)], false)
        | Except.ok _ =>
            let ev75 := Event.progress session_id "text removal done" 75 false none none
            let text_data := (extracted_texts.zip translated_texts).map
              (fun p => ({ text := p.2, bbox := p.1.bbox } : TextDatum))
            let _ := text_data
            match o.render with
            | Except.error e =>
                ([ev25, ev50, ev75, Event.error session_id ("processing error: " ++ e)], false)
            | Except.ok _ =>
                ([ev25, ev50, ev75,
                  Event.progress session_id "processing done" 100 true none none], true)
    else
      ([ev25, Event.error session_id ("processing error: " ++ attributeErrorMsg)], false)

/-! Background batch loop (app.py process_files_background). -/

/-- The processing_sessions entry the loop works from. -/
structure RunnerSession where
  files : List FileInfo
  output_folder : String
  target_language : String
  total : Nat
deriving DecidableEq, Repr

/-- Per-batch external environment: `present i` is whether session_id is
still a key of the in-process `processing_sessions` dict at the check
before file i, `oracle i` and `response i` are the stage outcomes for file
i, and `outputExists i` is the `os.path.exists(output_path)` test after a
successful file. -/
structure RunnerEnv where
  present : Nat → Bool
  oracle : Nat → StageOracle
  response : Nat → Option (List TranslationItem)
  outputExists : Nat → Bool

/-- `os.path.splitext`, then `<stem>_translated<ext>`. -/
def outputName (original : String) : String :=
  let parts := splitOnChar (Char.ofNat 46) original
  if parts.length ≥ 2 then
    joinSep "." parts.dropLast ++ "_translated." ++ parts.getLastD ""
  else original ++ "_translated"

/-- The `for i, file_info in enumerate(session[files])` loop: break when
the session id has left processing_sessions, otherwise emit the per-file
start progress event, process the file, and on success (and an existing
output file) register the completed file. Returns the final store state,
the events in order, and the session completed counter. -/
def runnerLoop (env : RunnerEnv) (session_id : String) (sess : RunnerSession)
    (now : Int) (i : Nat) (rest : List FileInfo) (fm : FileManagerState)
    (completed : Nat) : FileManagerState × List Event × Nat :=
  match rest with
  | [] => (fm, [], completed)
  | f :: rest1 =>
      if !env.present i then (fm, [], completed)
      else
        let evStart := Event.progress session_id
          ("processing " ++ toString (i + 1) ++ " of " ++ toString sess.total ++ ": "
            ++ f.original_name)
          (i * 100 / sess.total) false (some (i + 1)) (some sess.total)
        let step := process_single_image (env.oracle i) (env.response i)
          sess.target_language session_id
        if step.2 then
          let output_path := sess.output_folder ++ "/" ++ outputName f.original_name
          let fm1 := if env.outputExists i then
              add_completed_file fm now session_id f.original_name output_path
            else fm
          let tail := runnerLoop env session_id sess now (i + 1) rest1 fm1 (completed + 1)
          (tail.1, evStart :: step.1 ++ tail.2.1, tail.2.2)
        else
          let tail := runnerLoop env session_id sess now (i + 1) rest1 fm completed
          (tail.1, evStart :: step.1 ++ tail.2.1, tail.2.2)

/-- app.py process_files_background: fetch the session from
processing_sessions (modelled by `sessOpt`, the result of the initial
`.get`), run the loop, then mark the session completed in the FileManager
store and emit the terminal event with the download links read back from
the store. Note the loop's existence check reads processing_sessions, a
structure the FileManager store never feeds. -/
def process_files_background (env : RunnerEnv) (session_id : String)
    (sessOpt : Option RunnerSession) (fm : FileManagerState) (now : Int) :
    FileManagerState × List Event :=
  match sessOpt with
  | none => (fm, [])
  | some sess =>
      let run := runnerLoop env session_id sess now 0 sess.files fm 0
      let fm2 := update_session_status run.1 now session_id "completed"
      let links := match dictLookup fm2.metadata session_id with
                   | some s => s.completed_files
                   | none => []
      (fm2, run.2.1 ++
        [Event.processing_complete session_id
          ("processing done: " ++ toString run.2.2 ++ " of " ++ toString sess.total)
          links ("/output/" ++ session_id)])

/-! Concrete fixtures used by counterexamples and witnesses. -/

def emptyFM : FileManagerState := { metadata := [], max_age_hours := 24 }

def settingsEx : Settings :=
  { ocr_languages := ["en"], target_language := "Japanese", use_gpu := true }

def fileEx : FileInfo := { original_name := "a.png", path := "uploads/a/a.png" }

def fmA : FileManagerState := (register_session emptyFM 0 "a" [fileEx] settingsEx).1

def reqNoField : UploadRequest :=
  { has_files_field := false, filenames := [], ocr_languages_setting := none,
    target_language_setting := none, use_gpu_setting := none }

def reqDisallowed : UploadRequest :=
  { has_files_field := true, filenames := ["evil.txt"], ocr_languages_setting := none,
    target_language_setting := none, use_gpu_setting := none }

/-- A session record created at hour 0. -/
def sessionRecS : SessionData :=
  { session_id := "s", created_at := 0, files := [fileEx], settings := settingsEx,
    status := "processing", completed_files := [], output_files := [], updated_at := none }

/-- A store holding only the expired session `s`, with a 24 hour window. -/
def fmS : FileManagerState := { metadata := [("s", sessionRecS)], max_age_hours := 24 }

/-- The 100-byte uploads directory of session `s`, deletable. -/
def upS : DirEntry := { name := "s", size := 100, ctime := 0, deleteFails := false }

/-- Recognizes the per-file start progress event of the background loop,
the only progress event carrying the current_file and total_files
fields. -/
def isFileStartEvent : Event → Bool
  | Event.progress _ _ _ _ (some _) _ => true
  | _ => false

/-- A stage oracle where every external stage succeeds and one region with
text `Hi` is detected. -/
def oracleHi : StageOracle :=
  { imread_ok := true, readtext := Except.ok [{ text := "Hi", bbox := 0 }],
    imread2_ok := true, inpaint := Except.ok (), render := Except.ok () }

/-- A stage oracle whose detector raises. -/
def oracleDetectorFail : StageOracle :=
  { imread_ok := true, readtext := Except.error "model crash",
    imread2_ok := true, inpaint := Except.ok (), render := Except.ok () }

/-- A two-file batch session. -/
def sessTwoFiles : RunnerSession :=
  { files := [{ original_name := "a.png", path := "uploads/s/a.png" },
              { original_name := "b.png", path := "uploads/s/b.png" }],
    output_folder := "output/s", target_language := "Japanese", total := 2 }

/-- An environment where the session never leaves processing_sessions. -/
def envAlwaysPresent : RunnerEnv :=
  { present := fun _ => true, oracle := fun _ => oracleDetectorFail,
    response := fun _ => none, outputExists := fun _ => true }

/-- An environment where the session leaves processing_sessions before the
check preceding file k. -/
def envAbsentFrom (k : Nat) : RunnerEnv :=
  { present := fun i => decide (i < k), oracle := fun _ => oracleDetectorFail,
    response := fun _ => none, outputExists := fun _ => true }

/-- An empty session record created at hour 0 for the given id. -/
def recAt0 (sid : String) : SessionData :=
  { session_id := sid, created_at := 0, files := [], settings := settingsEx,
    status := "processing", completed_files := [], output_files := [], updated_at := none }

/-- A store holding two expired sessions s1, s2. -/
def fmTwo : FileManagerState :=
  { metadata := [("s1", recAt0 "s1"), ("s2", recAt0 "s2")], max_age_hours := 24 }

/-- An undeletable uploads directory of session s1. -/
def upFailS1 : DirEntry := { name := "s1", size := 50, ctime := 0, deleteFails := true }

/-- A deletable uploads directory of session s2. -/
def upOkS2 : DirEntry := { name := "s2", size := 60, ctime := 0, deleteFails := false }

/-- An undeletable old orphan directory. -/
def orphFail : DirEntry := { name := "o1", size := 50, ctime := 0, deleteFails := true }

/-- A deletable old orphan directory. -/
def orphOk : DirEntry := { name := "o2", size := 60, ctime := 0, deleteFails := false }

/-- The sweep state reached when cleaning session s1 whose uploads
directory cannot be deleted. -/
def stW : CState :=
  { metadata := [("s1", recAt0 "s1")], uploads := [upFailS1], output := [],
    result := emptyCleanupResult }

/-- The store produced by registering session b with one file. -/
def fmB : FileManagerState := (register_session emptyFM 0 "b" [fileEx] settingsEx).1

/-- The record produced by registering session b with one file. -/
def recB : SessionData := (register_session emptyFM 0 "b" [fileEx] settingsEx).2

/-- A one-file batch session matching fmB. -/
def sessB : RunnerSession :=
  { files := [fileEx], output_folder := "output/b", target_language := "Japanese",
    total := 1 }

/-! Dictionary lemmas shared by several developments. -/

theorem dictLookup_nil (k : String) : dictLookup [] k = none := rfl

theorem dictLookup_cons (x : String × SessionData) (l : Metadata) (k : String) :
    dictLookup (x :: l) k = if x.1 = k then some x.2 else dictLookup l k := by
  by_cases h : x.1 = k <;> simp [dictLookup, List.find?_cons, h]

theorem dictContains_cons (x : String × SessionData) (l : Metadata) (k : String) :
    dictContains (x :: l) k = (decide (x.1 = k) || dictContains l k) := by
  simp [dictContains]

theorem dictContains_eq_isSome (m : Metadata) (k : String) :
    dictContains m k = (dictLookup m k).isSome := by
  induction m with
  | nil => rfl
  | cons x l ih =>
      by_cases h : x.1 = k <;>
        simp [dictContains_cons, dictLookup_cons, h, ih]

theorem dictLookup_map_set (m : Metadata) (k : String) (v : SessionData)
    (h : dictContains m k = true) :
    dictLookup (m.map (fun p => if p.1 = k then (k, v) else p)) k = some v := by
  induction m with
  | nil => simp [dictContains] at h
  | cons x l ih =>
      by_cases hx : x.1 = k
      · simp [hx, dictLookup_cons]
      · have hl : dictContains l k = true := by
          simp [dictContains_cons, hx] at h
          simpa [dictContains] using h
        simpa [hx, dictLookup_cons] using ih hl

theorem dictLookup_append_single (m : Metadata) (k : String) (v : SessionData)
    (h : dictContains m k = false) :
    dictLookup (m ++ [(k, v)]) k = some v := by
  induction m with
  | nil => simp [dictLookup_cons]
  | cons x l ih =>
      have hx : ¬ x.1 = k := by
        intro hk
        simp [dictContains_cons, hk] at h
      have hl : dictContains l k = false := by
        simp [dictContains_cons, hx] at h
        simpa [dictContains] using h
      simpa [dictLookup_cons, hx] using ih hl

theorem dictLookup_dictSet (m : Metadata) (k : String) (v : SessionData) :
    dictLookup (dictSet m k v) k = some v := by
  unfold dictSet
  by_cases h : dictContains m k = true
  · simpa [h] using dictLookup_map_set m k v h
  · have h0 : dictContains m k = false := by simpa using h
    simpa [h0] using dictLookup_append_single m k v h0

theorem dictContains_dictSet (m : Metadata) (k : String) (v : SessionData) :
    dictContains (dictSet m k v) k = true := by
  rw [dictContains_eq_isSome, dictLookup_dictSet]
  rfl

/-- C5 counterexample: the claim says a set that is neither Chinese nor
English-only passes through unchanged, but the code collapses any
English-containing set to English-only. -/
theorem C5_counterexample :
    adjust_ocr_languages ["en", "fr"] ≠ ["en", "fr"] ∧
    adjust_ocr_languages ["en", "fr"] = ["en"] := by
  constructor
  · decide
  · decide

/-- C5 (amended): a set containing a Chinese variant is force-paired with
the English code (ch_sim taking priority); a Chinese-free set containing
the English code collapses to English-only; any other set passes through
unchanged; and the four listed examples hold. -/
theorem C5_language_adjustment :
    (∀ L : List String, "ch_sim" ∈ L → adjust_ocr_languages L = ["ch_sim", "en"]) ∧
    (∀ L : List String, "ch_sim" ∉ L → "ch_tra" ∈ L →
      adjust_ocr_languages L = ["ch_tra", "en"]) ∧
    (∀ L : List String, "ch_sim" ∉ L → "ch_tra" ∉ L → "en" ∈ L →
      adjust_ocr_languages L = ["en"]) ∧
    (∀ L : List String, "ch_sim" ∉ L → "ch_tra" ∉ L → "en" ∉ L →
      adjust_ocr_languages L = L) ∧
    adjust_ocr_languages ["ch_sim"] = ["ch_sim", "en"] ∧
    adjust_ocr_languages ["ch_tra"] = ["ch_tra", "en"] ∧
    adjust_ocr_languages ["en"] = ["en"] ∧
    adjust_ocr_languages ["fr"] = ["fr"] := by
  refine ⟨?_, ?_, ?_, ?_, by decide, by decide, by decide, by decide⟩
  · intro L h
    have hany : L.any (fun lang => lang = "ch_sim" || lang = "ch_tra") = true := by
      simp only [List.any_eq_true]
      exact ⟨"ch_sim", h, by simp⟩
    simp [adjust_ocr_languages, hany, h]
  · intro L h1 h2
    have hany : L.any (fun lang => lang = "ch_sim" || lang = "ch_tra") = true := by
      simp only [List.any_eq_true]
      exact ⟨"ch_tra", h2, by simp⟩
    simp [adjust_ocr_languages, hany, h1, h2]
  · intro L h1 h2 h3
    have hany : L.any (fun lang => lang = "ch_sim" || lang = "ch_tra") = false := by
      simp only [List.any_eq_false]
      intro x hx
      simp only [Bool.or_eq_true, decide_eq_true_eq, not_or]
      exact ⟨fun hc => h1 (hc ▸ hx), fun hc => h2 (hc ▸ hx)⟩
    simp [adjust_ocr_languages, hany, h1, h2, h3]
  · intro L h1 h2 h3
    have hany : L.any (fun lang => lang = "ch_sim" || lang = "ch_tra") = false := by
      simp only [List.any_eq_false]
      intro x hx
      simp only [Bool.or_eq_true, decide_eq_true_eq, not_or]
      exact ⟨fun hc => h1 (hc ▸ hx), fun hc => h2 (hc ▸ hx)⟩
    simp [adjust_ocr_languages, hany, h1, h2, h3]

/-- C5 witness: the amended branches applied at concrete inputs. -/
theorem C5_language_adjustment_witness :
    adjust_ocr_languages ["fr", "de"] = ["fr", "de"] ∧
    adjust_ocr_languages ["fr", "ch_sim"] = ["ch_sim", "en"] :=
  ⟨C5_language_adjustment.2.2.2.1 ["fr", "de"] (by decide) (by decide) (by decide),
   C5_language_adjustment.1 ["fr", "ch_sim"] (by decide)⟩

/-- C3 counterexample: with session id `a` already present, a second
register call still succeeds and replaces the stored record by the new
one; nothing rejects the duplicate. -/
theorem C3_counterexample :
    dictContains fmA.metadata "a" = true ∧
    (register_session fmA 5 "a" [] settingsEx).1.metadata =
      [("a", (register_session fmA 5 "a" [] settingsEx).2)] ∧
    (register_session fmA 5 "a" [] settingsEx).2 ≠
      (register_session emptyFM 0 "a" [fileEx] settingsEx).2 := by
  refine ⟨by decide, by decide, by decide⟩

/-- C3 (amended): register_session performs no duplicate-id check: on any
state, including one already holding the id, it completes without error
and stores the freshly built record under the id, replacing any previous
record. -/
theorem C3_register_overwrites (fm : FileManagerState) (now : Int) (sid : String)
    (files : List FileInfo) (settings : Settings) :
    dictLookup (register_session fm now sid files settings).1.metadata sid =
      some (register_session fm now sid files settings).2 ∧
    (register_session fm now sid files settings).2 =
      { session_id := sid, created_at := now, files := files, settings := settings,
        status := "processing", completed_files := [], output_files := [],
        updated_at := none } := by
  exact ⟨dictLookup_dictSet fm.metadata sid _, rfl⟩

/-- C6 counterexample: a submission whose only file has a disallowed
extension is not rejected: the endpoint answers 200 with file_count 0 and
a session is registered. -/
theorem C6_counterexample :
    (upload_files reqDisallowed "sid1" 0 emptyFM []).1 =
      Except.ok { session_id := "sid1", file_count := 0 } ∧
    dictContains (upload_files reqDisallowed "sid1" 0 emptyFM []).2.1.metadata "sid1" = true := by
  refine ⟨by decide, by decide⟩

/-- C6 (amended): only a submission whose form lacks the files field is
rejected synchronously (with a client-facing error and no session);
any submission carrying the field, disallowed-extension or empty as its
file list may be, is accepted: offending files are silently skipped and a
session is registered for whatever remains. -/
theorem C6_upload_validation (req : UploadRequest) (sid : String) (now : Int)
    (fm : FileManagerState) (proc : List String) :
    (req.has_files_field = false →
      upload_files req sid now fm proc = (Except.error ("no files selected", 400), fm, proc)) ∧
    (req.has_files_field = true →
      (upload_files req sid now fm proc).1 =
        Except.ok { session_id := sid,
                    file_count := (req.filenames.filter allowed_file).length } ∧
      dictContains (upload_files req sid now fm proc).2.1.metadata sid = true) := by
  constructor
  · intro h
    simp [upload_files, h]
  · intro h
    constructor
    · simp [upload_files, h]
    · simp [upload_files, h, register_session, dictContains_dictSet]

/-- C6 witness: the two amended branches at concrete requests. -/
theorem C6_upload_validation_witness :
    upload_files reqNoField "w1" 0 emptyFM [] =
      (Except.error ("no files selected", 400), emptyFM, []) ∧
    dictContains (upload_files reqDisallowed "w2" 0 emptyFM []).2.1.metadata "w2" = true :=
  ⟨(C6_upload_validation reqNoField "w1" 0 emptyFM []).1 rfl,
   ((C6_upload_validation reqDisallowed "w2" 0 emptyFM []).2 rfl).2⟩

/-! Lemmas on the retention sweep. -/

theorem find?_filter_name_ne (l : DirListing) (n : String) :
    List.find? (fun e => e.name = n) (List.filter (fun x => !decide (x.name = n)) l) = none := by
  rw [List.find?_eq_none]
  intro a ha
  simpa using List.of_mem_filter ha

theorem get_dir_size_filter_self (l : DirListing) (n : String) :
    get_dir_size (List.filter (fun x => !decide (x.name = n)) l) n = 0 := by
  unfold get_dir_size
  rw [find?_filter_name_ne]

theorem get_dir_size_filter_ne_self (l : DirListing) (n : String) :
    get_dir_size (List.filter (fun x => decide (x.name ≠ n)) l) n = 0 := by
  simpa using get_dir_size_filter_self l n

theorem deleteSessionDir_ok (dry : Bool) (l : DirListing) (n : String) (freed : Nat)
    (l1 : DirListing) (f1 : Nat)
    (h : deleteSessionDir dry l n freed = Except.ok (l1, f1)) :
    f1 = freed ∧ (l1 = l ∨ l1 = l.filter (fun x => x.name ≠ n)) := by
  unfold deleteSessionDir at h
  by_cases hex : existsDir l n
  · rw [if_pos hex] at h
    cases dry with
    | true =>
        simp only [Bool.not_true, Bool.false_eq_true, if_false, Except.ok.injEq,
          Prod.mk.injEq] at h
        exact ⟨h.2.symm, Or.inl h.1.symm⟩
    | false =>
        simp only [Bool.not_false, if_true] at h
        unfold rmtree at h
        cases hf : l.find? (fun e => e.name = n) with
        | none => rw [hf] at h; simp at h
        | some e =>
            rw [hf] at h
            cases hd : e.deleteFails with
            | true => simp [hd] at h
            | false =>
                simp only [hd, Bool.false_eq_true, if_false, Except.ok.injEq,
                  Prod.mk.injEq] at h
                refine ⟨?_, Or.inr h.1.symm⟩
                rw [← h.2, get_dir_size_filter_ne_self]
                rfl
  · rw [if_neg hex] at h
    simp only [Except.ok.injEq, Prod.mk.injEq] at h
    exact ⟨h.2.symm, Or.inl h.1.symm⟩

theorem cleanupOneSession_freed (dry : Bool) (st : CState) (sid : String) :
    (cleanupOneSession dry st sid).result.freed_space = st.result.freed_space := by
  unfold cleanupOneSession
  cases h1 : deleteSessionDir dry st.uploads sid st.result.freed_space with
  | error e => rfl
  | ok p =>
      obtain ⟨up1, f1⟩ := p
      have hf1 := (deleteSessionDir_ok dry st.uploads sid st.result.freed_space up1 f1 h1).1
      cases h2 : deleteSessionDir dry st.output sid f1 with
      | error e =>
          simp only [h2]
          exact hf1
      | ok q =>
          obtain ⟨out1, f2⟩ := q
          have hf2 := (deleteSessionDir_ok dry st.output sid f1 out1 f2 h2).1
          simp only [h2]
          exact hf2.trans hf1

theorem cleanupOneSession_errors_mono (dry : Bool) (st : CState) (sid : String) :
    ∃ tail, (cleanupOneSession dry st sid).result.errors = st.result.errors ++ tail := by
  unfold cleanupOneSession
  cases h1 : deleteSessionDir dry st.uploads sid st.result.freed_space with
  | error e => exact ⟨[cleanupErrorMsg sid e], rfl⟩
  | ok p =>
      obtain ⟨up1, f1⟩ := p
      cases h2 : deleteSessionDir dry st.output sid f1 with
      | error e =>
          refine ⟨[cleanupErrorMsg sid e], ?_⟩
          simp only [h2]
      | ok q =>
          obtain ⟨out1, f2⟩ := q
          refine ⟨[], ?_⟩
          simp only [h2, List.append_nil]

theorem orphanStep_freed (dry : Bool) (ids : List String) (root : String) (cutoff : Int)
    (st : DirListing × CleanupResult) (e : DirEntry) :
    (orphanStep dry ids root cutoff st e).2.freed_space = st.2.freed_space := by
  unfold orphanStep
  split
  · rfl
  · split
    · split
      · split
        · rfl
        · simp [get_dir_size_filter_self]
      · rfl
    · rfl

theorem orphanStep_errors (dry : Bool) (ids : List String) (root : String) (cutoff : Int)
    (st : DirListing × CleanupResult) (e : DirEntry) :
    (orphanStep dry ids root cutoff st e).2.errors = st.2.errors := by
  unfold orphanStep
  split
  · rfl
  · split
    · split
      · split
        · rfl
        · rfl
      · rfl
    · rfl

theorem orphanStep_deleted_sessions (dry : Bool) (ids : List String) (root : String)
    (cutoff : Int) (st : DirListing × CleanupResult) (e : DirEntry) :
    (orphanStep dry ids root cutoff st e).2.deleted_sessions = st.2.deleted_sessions := by
  unfold orphanStep
  split
  · rfl
  · split
    · split
      · split
        · rfl
        · rfl
      · rfl
    · rfl

theorem foldl_inv {α σ : Type _} (f : σ → α → σ) (P : σ → Prop)
    (hstep : ∀ s a, P s → P (f s a)) :
    ∀ (l : List α) (s : σ), P s → P (l.foldl f s) := by
  intro l
  induction l with
  | nil => intro s hs; exact hs
  | cons a l ih => intro s hs; exact ih (f s a) (hstep s a hs)

theorem sessionPhase_freed (dry : Bool) (L : List String) (st : CState) :
    (sessionPhase dry L st).result.freed_space = st.result.freed_space :=
  foldl_inv (cleanupOneSession dry)
    (fun s => s.result.freed_space = st.result.freed_space)
    (fun s a hs => by
      show (cleanupOneSession dry s a).result.freed_space = st.result.freed_space
      rw [cleanupOneSession_freed]
      exact hs) L st rfl

theorem orphanPhase_freed (dry : Bool) (ids : List String) (root : String) (cutoff : Int)
    (init : DirListing × CleanupResult) (listing : DirListing) :
    (orphanPhase dry ids root cutoff init listing).2.freed_space = init.2.freed_space :=
  foldl_inv (orphanStep dry ids root cutoff)
    (fun s => s.2.freed_space = init.2.freed_space)
    (fun s a hs => by
      show (orphanStep dry ids root cutoff s a).2.freed_space = init.2.freed_space
      rw [orphanStep_freed]
      exact hs) listing init rfl

theorem orphanPhase_errors (dry : Bool) (ids : List String) (root : String) (cutoff : Int)
    (init : DirListing × CleanupResult) (listing : DirListing) :
    (orphanPhase dry ids root cutoff init listing).2.errors = init.2.errors :=
  foldl_inv (orphanStep dry ids root cutoff)
    (fun s => s.2.errors = init.2.errors)
    (fun s a hs => by
      show (orphanStep dry ids root cutoff s a).2.errors = init.2.errors
      rw [orphanStep_errors]
      exact hs) listing init rfl

theorem orphanPhase_deleted_sessions (dry : Bool) (ids : List String) (root : String)
    (cutoff : Int) (init : DirListing × CleanupResult) (listing : DirListing) :
    (orphanPhase dry ids root cutoff init listing).2.deleted_sessions =
      init.2.deleted_sessions :=
  foldl_inv (orphanStep dry ids root cutoff)
    (fun s => s.2.deleted_sessions = init.2.deleted_sessions)
    (fun s a hs => by
      show (orphanStep dry ids root cutoff s a).2.deleted_sessions = init.2.deleted_sessions
      rw [orphanStep_deleted_sessions]
      exact hs) listing init rfl

/-- C2: the sweep does delete an expired session's directories and its
record, but the freed-space accounting is broken: the source measures each
directory size after `shutil.rmtree` has removed it, so every contribution
is zero and the report's freed_space is 0 on every input — in particular
on a store whose expired session owns a 100-byte uploads directory. -/
theorem C2_freed_space_always_zero :
    (∀ (fm : FileManagerState) (now : Int) (uploads output : DirListing) (dry : Bool),
      (cleanup_old_files fm now uploads output dry).result.freed_space = 0) ∧
    cleanup_old_files fmS 25 [upS] [] false =
      { fm := { metadata := [], max_age_hours := 24 }, uploads := [], output := [],
        result := { deleted_sessions := ["s"], deleted_files := [], freed_space := 0,
                    errors := [] } } := by
  constructor
  · intro fm now uploads output dry
    show (cleanup_old_files fm now uploads output dry).result.freed_space = 0
    unfold cleanup_old_files
    simp only
    rw [orphanPhase_freed, orphanPhase_freed, sessionPhase_freed]
    rfl
  · decide

/-! Lemmas on the per-file pipeline. -/

theorem psi_translation_bug (o : StageOracle) (response : Option (List TranslationItem))
    (target sid : String) (h : extract_text o ≠ []) :
    process_single_image o response target sid =
      ([Event.progress sid
          ("text detection done: " ++ toString (extract_text o).length ++ " regions")
          25 false none none,
        Event.error sid ("processing error: " ++ attributeErrorMsg)], false) := by
  have h1 : (extract_text o).isEmpty = false := by
    cases hE : extract_text o with
    | nil => exact absurd hE h
    | cons a l => rfl
  have h2 : hasTranslatorMethod "translate_texts" = false := by decide
  unfold process_single_image
  simp [h1, h2]

theorem psi_empty_extraction (o : StageOracle) (response : Option (List TranslationItem))
    (target sid : String) (h : extract_text o = []) :
    process_single_image o response target sid = ([], false) := by
  unfold process_single_image
  rw [h]
  rfl

theorem psi_no_start_events (o : StageOracle) (response : Option (List TranslationItem))
    (target sid : String) :
    ∀ ev ∈ (process_single_image o response target sid).1, isFileStartEvent ev = false := by
  intro ev hev
  by_cases hE : extract_text o = []
  · rw [psi_empty_extraction o response target sid hE] at hev
    simp at hev
  · rw [psi_translation_bug o response target sid hE] at hev
    simp only [List.mem_cons, List.mem_singleton, List.not_mem_nil, or_false] at hev
    rcases hev with rfl | rfl <;> rfl

theorem runnerLoop_start_count (env : RunnerEnv) (sid : String) (sess : RunnerSession)
    (now : Int) (hp : ∀ i, env.present i = true) :
    ∀ (rest : List FileInfo) (i : Nat) (fm : FileManagerState) (c : Nat),
      ((runnerLoop env sid sess now i rest fm c).2.1.countP isFileStartEvent) = rest.length := by
  intro rest
  induction rest with
  | nil => intro i fm c; rfl
  | cons f rest1 ih =>
      intro i fm c
      have hpi := hp i
      have h0 : ((process_single_image (env.oracle i) (env.response i) sess.target_language
            sid).1.countP isFileStartEvent) = 0 := by
        rw [List.countP_eq_zero]
        intro ev hev
        simpa using psi_no_start_events (env.oracle i) (env.response i)
          sess.target_language sid ev hev
      cases hstep : (process_single_image (env.oracle i) (env.response i)
          sess.target_language sid).2 with
      | false =>
          simp only [runnerLoop, hpi, Bool.not_true, Bool.false_eq_true, if_false, hstep]
          rw [List.countP_append, List.countP_cons, h0, ih (i + 1) fm c]
          simp [isFileStartEvent, Nat.add_comm]
      | true =>
          simp only [runnerLoop, hpi, Bool.not_true, Bool.false_eq_true, if_false, hstep,
            eq_self_iff_true, if_true]
          rw [List.countP_append, List.countP_cons, h0]
          rw [ih (i + 1) _ (c + 1)]
          simp [isFileStartEvent, Nat.add_comm]

/-- C1: the per-file pipeline cannot perform its translation step at all:
class GeminiTranslator defines no translate_texts attribute, so for every
file whose detection reports at least one region the call raises
AttributeError, the per-file handler emits an error event, no 50 percent
progress event is ever emitted, and the file fails — the single ordered
bulk call the claim describes (bulk_translate_simple) is never reached. -/
theorem C1_translation_never_runs (o : StageOracle)
    (response : Option (List TranslationItem)) (target sid : String)
    (h : extract_text o ≠ []) :
    hasTranslatorMethod "translate_texts" = false ∧
    (process_single_image o response target sid).2 = false ∧
    (∃ msg, Event.error sid msg ∈ (process_single_image o response target sid).1) ∧
    ∀ msg c cf tf, Event.progress sid msg 50 c cf tf ∉
      (process_single_image o response target sid).1 := by
  refine ⟨by decide, ?_, ?_, ?_⟩
  · rw [psi_translation_bug o response target sid h]
  · refine ⟨"processing error: " ++ attributeErrorMsg, ?_⟩
    rw [psi_translation_bug o response target sid h]
    simp
  · intro msg c cf tf hmem
    rw [psi_translation_bug o response target sid h] at hmem
    simp at hmem

/-- C1 witness: a file with one detected region `Hi`. -/
theorem C1_translation_never_runs_witness :
    extract_text oracleHi ≠ [] ∧
    ((process_single_image oracleHi none "Japanese" "s").2 = false ∧
      (∃ msg, Event.error "s" msg ∈ (process_single_image oracleHi none "Japanese" "s").1)) :=
  ⟨by decide,
   (C1_translation_never_runs oracleHi none "Japanese" "s" (by decide)).2.1,
   (C1_translation_never_runs oracleHi none "Japanese" "s" (by decide)).2.2.1⟩

/-- C10 counterexample: a file whose detector raises produces no events at
all — in particular no error event — because the extractor swallows the
exception into an empty result; the claim says such a stage failure is
surfaced via an error event. -/
theorem C10_counterexample :
    oracleDetectorFail.readtext = Except.error "model crash" ∧
    process_single_image oracleDetectorFail none "Japanese" "s2" = ([], false) := by
  exact ⟨rfl, by decide⟩

/-- C10 (amended): stage failures are isolated per file and the batch
continues, but only exceptions raised after a non-empty extraction are
surfaced via an error event (as the last event of the file, with the file
marked failed); detector failures and unreadable images are swallowed by
the extractor into a zero-region result and the file is skipped silently
with no event; under an always-present session the loop still visits
every file of the batch, whatever each file's outcome. -/
theorem C10_stage_failure_isolation :
    (∀ (o : StageOracle) (response : Option (List TranslationItem)) (target sid : String),
      (o.imread_ok = false ∨ ∃ e, o.readtext = Except.error e) →
      process_single_image o response target sid = ([], false)) ∧
    (∀ (o : StageOracle) (response : Option (List TranslationItem)) (target sid : String),
      extract_text o ≠ [] →
      ∃ msg, (process_single_image o response target sid).1.getLast? =
          some (Event.error sid msg) ∧
        (process_single_image o response target sid).2 = false) ∧
    (∀ (env : RunnerEnv) (sid : String) (sess : RunnerSession) (now : Int)
       (fm : FileManagerState),
      (∀ i, env.present i = true) →
      ((runnerLoop env sid sess now 0 sess.files fm 0).2.1.countP isFileStartEvent) =
        sess.files.length) := by
  refine ⟨?_, ?_, ?_⟩
  · intro o response target sid h
    have hE : extract_text o = [] := by
      unfold extract_text
      rcases h with h | ⟨e, h⟩
      · rw [h]; rfl
      · rw [h]; cases o.imread_ok <;> rfl
    exact psi_empty_extraction o response target sid hE
  · intro o response target sid h
    refine ⟨"processing error: " ++ attributeErrorMsg, ?_, ?_⟩
    · rw [psi_translation_bug o response target sid h]
      rfl
    · rw [psi_translation_bug o response target sid h]
  · intro env sid sess now fm hp
    exact runnerLoop_start_count env sid sess now hp sess.files 0 fm 0

/-- C10 witness: the three amended branches at concrete inputs. -/
theorem C10_stage_failure_isolation_witness :
    process_single_image oracleDetectorFail none "Japanese" "s3" = ([], false) ∧
    (∃ msg, (process_single_image oracleHi none "Japanese" "s3").1.getLast? =
        some (Event.error "s3" msg) ∧
      (process_single_image oracleHi none "Japanese" "s3").2 = false) ∧
    ((runnerLoop envAlwaysPresent "s3" sessTwoFiles 25 0 sessTwoFiles.files emptyFM
        0).2.1.countP isFileStartEvent) = sessTwoFiles.files.length :=
  ⟨C10_stage_failure_isolation.1 oracleDetectorFail none "Japanese" "s3"
     (Or.inr ⟨"model crash", rfl⟩),
   C10_stage_failure_isolation.2.1 oracleHi none "Japanese" "s3" (by decide),
   C10_stage_failure_isolation.2.2 envAlwaysPresent "s3" sessTwoFiles 25 emptyFM
     (fun _ => rfl)⟩

/-- C9 counterexample: with an empty store and one undeletable old orphan
directory o1 beside a deletable one o2, the sweep fails on o1 (it remains
on disk), continues and deletes o2, yet the report's errors list stays
empty — the orphan deletion failure is never appended to it. -/
theorem C9_counterexample :
    (cleanup_old_files emptyFM 25 [orphFail, orphOk] [] false).result.errors = [] ∧
    (cleanup_old_files emptyFM 25 [orphFail, orphOk] [] false).uploads = [orphFail] ∧
    (cleanup_old_files emptyFM 25 [orphFail, orphOk] [] false).result.deleted_files =
      ["uploads/o2"] := by
  refine ⟨by decide, by decide, by decide⟩

/-- C9 (amended): an expired-session deletion failure is caught, appended
to the report's errors, and leaves the rest of the state for the next
iteration, so the scan continues (concretely, with s1 undeletable and s2
deletable, s2 is still reclaimed); orphan-directory deletion failures are
caught and do not abort the sweep either, but they are only logged: the
orphan phase never appends to the report's errors. -/
theorem C9_deletion_failures :
    (∀ (dry : Bool) (ids : List String) (root : String) (cutoff : Int)
       (cur : DirListing) (res : CleanupResult) (listing : DirListing),
      (orphanPhase dry ids root cutoff (cur, res) listing).2.errors = res.errors) ∧
    (∀ (st : CState) (sid : String) (e0 : DirEntry),
      st.uploads.find? (fun e => e.name = sid) = some e0 →
      e0.deleteFails = true →
      cleanupOneSession false st sid =
        { st with result :=
            { st.result with errors :=
                st.result.errors ++ [cleanupErrorMsg sid ("cannot delete " ++ sid)] } }) ∧
    (cleanup_old_files fmTwo 25 [upFailS1, upOkS2] [] false).result.errors =
      [cleanupErrorMsg "s1" ("cannot delete " ++ "s1")] ∧
    (cleanup_old_files fmTwo 25 [upFailS1, upOkS2] [] false).result.deleted_sessions =
      ["s2"] ∧
    dictContains (cleanup_old_files fmTwo 25 [upFailS1, upOkS2] [] false).fm.metadata
      "s1" = true ∧
    dictContains (cleanup_old_files fmTwo 25 [upFailS1, upOkS2] [] false).fm.metadata
      "s2" = false := by
  refine ⟨?_, ?_, by decide, by decide, by decide, by decide⟩
  · intro dry ids root cutoff cur res listing
    exact orphanPhase_errors dry ids root cutoff (cur, res) listing
  · intro st sid e0 hfind hfail
    have hex : existsDir st.uploads sid = true := by
      simp [existsDir, hfind]
    have hdel : deleteSessionDir false st.uploads sid st.result.freed_space =
        Except.error ("cannot delete " ++ sid) := by
      unfold deleteSessionDir
      rw [if_pos hex]
      simp only [Bool.not_false, if_true]
      unfold rmtree
      rw [hfind]
      simp [hfail]
    unfold cleanupOneSession
    rw [hdel]

/-- C9 witness: the step branch applied to the concrete failing state. -/
theorem C9_deletion_failures_witness :
    stW.uploads.find? (fun e => e.name = "s1") = some upFailS1 ∧
    upFailS1.deleteFails = true ∧
    cleanupOneSession false stW "s1" =
      { stW with result :=
          { stW.result with errors :=
              stW.result.errors ++ [cleanupErrorMsg "s1" ("cannot delete " ++ "s1")] } } :=
  ⟨by decide, by decide,
   C9_deletion_failures.2.1 stW "s1" upFailS1 (by decide) (by decide)⟩

/-! Lemmas on the background loop's existence check. -/

theorem runnerLoop_stops_at_absent (env : RunnerEnv) (sid : String) (sess : RunnerSession)
    (now : Int) :
    ∀ (rest : List FileInfo) (i k : Nat) (fm : FileManagerState) (c : Nat),
      env.present (i + k) = false →
      runnerLoop env sid sess now i rest fm c =
        runnerLoop env sid sess now i (rest.take k) fm c := by
  intro rest
  induction rest with
  | nil => intro i k fm c h; rw [List.take_nil]
  | cons f rest1 ih =>
      intro i k fm c h
      cases k with
      | zero =>
          have hp : env.present i = false := by simpa using h
          simp [runnerLoop, hp]
      | succ k1 =>
          cases hp : env.present i with
          | false => simp [runnerLoop, hp, List.take_succ_cons]
          | true =>
              have h1 : env.present ((i + 1) + k1) = false := by
                rw [show (i + 1) + k1 = i + (k1 + 1) by omega]
                exact h
              cases hstep : (process_single_image (env.oracle i) (env.response i)
                  sess.target_language sid).2 with
              | false =>
                  simp only [List.take_succ_cons, runnerLoop, hp, Bool.not_true,
                    Bool.false_eq_true, if_false, hstep]
                  rw [ih (i + 1) k1 fm c h1]
              | true =>
                  simp only [List.take_succ_cons, runnerLoop, hp, Bool.not_true,
                    Bool.false_eq_true, if_false, hstep, eq_self_iff_true, if_true]
                  rw [ih (i + 1) k1 _ (c + 1) h1]

theorem runnerLoop_events_indep (env : RunnerEnv) (sid : String) (sess : RunnerSession)
    (now : Int) :
    ∀ (rest : List FileInfo) (i : Nat) (fm fm2 : FileManagerState) (c : Nat),
      (runnerLoop env sid sess now i rest fm c).2 =
        (runnerLoop env sid sess now i rest fm2 c).2 := by
  intro rest
  induction rest with
  | nil => intro i fm fm2 c; rfl
  | cons f rest1 ih =>
      intro i fm fm2 c
      cases hp : env.present i with
      | false => simp [runnerLoop, hp]
      | true =>
          cases hstep : (process_single_image (env.oracle i) (env.response i)
              sess.target_language sid).2 with
          | false =>
              simp only [runnerLoop, hp, Bool.not_true, Bool.false_eq_true, if_false, hstep]
              have h1 := congrArg Prod.fst (ih (i + 1) fm fm2 c)
              have h2 := congrArg Prod.snd (ih (i + 1) fm fm2 c)
              simp only [Prod.mk.injEq]
              exact ⟨by rw [h1], by rw [h2]⟩
          | true =>
              simp only [runnerLoop, hp, Bool.not_true, Bool.false_eq_true, if_false, hstep,
                eq_self_iff_true, if_true]
              have h1 := congrArg Prod.fst (ih (i + 1)
                (if env.outputExists i = true then
                  add_completed_file fm now sid f.original_name
                    (sess.output_folder ++ "/" ++ outputName f.original_name)
                else fm)
                (if env.outputExists i = true then
                  add_completed_file fm2 now sid f.original_name
                    (sess.output_folder ++ "/" ++ outputName f.original_name)
                else fm2)
                (c + 1))
              have h2 := congrArg Prod.snd (ih (i + 1)
                (if env.outputExists i = true then
                  add_completed_file fm now sid f.original_name
                    (sess.output_folder ++ "/" ++ outputName f.original_name)
                else fm)
                (if env.outputExists i = true then
                  add_completed_file fm2 now sid f.original_name
                    (sess.output_folder ++ "/" ++ outputName f.original_name)
                else fm2)
                (c + 1))
              simp only [Prod.mk.injEq]
              exact ⟨by rw [h1], by rw [h2]⟩

/-- C4 counterexample: the Retention Manager removes expired session s
from the Store, yet a runner for s whose id is still in the in-process
processing_sessions map (which the sweep never touches) goes on to
process both files of the batch — the per-file check does not detect
Store removal. -/
theorem C4_counterexample :
    dictContains (cleanup_old_files fmS 25 [upS] [] false).fm.metadata "s" = false ∧
    ((runnerLoop envAlwaysPresent "s" sessTwoFiles 25 0 sessTwoFiles.files
        (cleanup_old_files fmS 25 [upS] [] false).fm 0).2.1.countP isFileStartEvent) =
      2 := by
  refine ⟨by decide, by decide⟩

/-- C4 (amended): the Runner's per-file existence check consults the
in-process processing_sessions registry, not the FileManager Store: the
emitted events and processed-file count are independent of the Store's
contents, so removing the record from the Store (as the Retention Manager
does) does not stop the batch; what stops it is the id leaving
processing_sessions — absent at the check before file k, the run equals
the run over the first k files only, with no error raised. -/
theorem C4_cancellation_registry_not_store :
    (∀ (env : RunnerEnv) (sid : String) (sess : RunnerSession) (now : Int)
       (rest : List FileInfo) (i : Nat) (fm fm2 : FileManagerState) (c : Nat),
      (runnerLoop env sid sess now i rest fm c).2 =
        (runnerLoop env sid sess now i rest fm2 c).2) ∧
    (∀ (env : RunnerEnv) (sid : String) (sess : RunnerSession) (now : Int)
       (k : Nat) (fm : FileManagerState),
      env.present k = false →
      runnerLoop env sid sess now 0 sess.files fm 0 =
        runnerLoop env sid sess now 0 (sess.files.take k) fm 0) :=
  ⟨fun env sid sess now rest i fm fm2 c =>
     runnerLoop_events_indep env sid sess now rest i fm fm2 c,
   fun env sid sess now k fm h =>
     runnerLoop_stops_at_absent env sid sess now sess.files 0 k fm 0 (by simpa using h)⟩

/-- C4 witness: a session gone from processing_sessions before file 1. -/
theorem C4_cancellation_registry_not_store_witness :
    (envAbsentFrom 1).present 1 = false ∧
    runnerLoop (envAbsentFrom 1) "s" sessTwoFiles 25 0 sessTwoFiles.files emptyFM 0 =
      runnerLoop (envAbsentFrom 1) "s" sessTwoFiles 25 0 (sessTwoFiles.files.take 1)
        emptyFM 0 :=
  ⟨by decide,
   C4_cancellation_registry_not_store.2 (envAbsentFrom 1) "s" sessTwoFiles 25 1 emptyFM
     (by decide)⟩

/-! Lemmas for the completed-files bound. -/

theorem add_completed_file_lookup (fm : FileManagerState) (now : Int) (sid a b : String) :
    ∀ r1, dictLookup (add_completed_file fm now sid a b).metadata sid = some r1 →
      ∃ r0, dictLookup fm.metadata sid = some r0 ∧ r1.files = r0.files ∧
        r1.completed_files.length ≤ r0.completed_files.length + 1 := by
  intro r1 h1
  unfold add_completed_file at h1
  cases h0 : dictLookup fm.metadata sid with
  | none =>
      rw [h0] at h1
      have h1x : dictLookup fm.metadata sid = some r1 := h1
      rw [h0] at h1x
      exact absurd h1x (by simp)
  | some s =>
      rw [h0] at h1
      rw [dictLookup_dictSet] at h1
      obtain rfl := Option.some.inj h1
      exact ⟨s, rfl, rfl, by simp⟩

theorem runnerLoop_lookup_bound (env : RunnerEnv) (sid : String) (sess : RunnerSession)
    (now : Int) :
    ∀ (rest : List FileInfo) (i : Nat) (fm : FileManagerState) (c : Nat) (r1 : SessionData),
      dictLookup (runnerLoop env sid sess now i rest fm c).1.metadata sid = some r1 →
      ∃ r0, dictLookup fm.metadata sid = some r0 ∧ r1.files = r0.files ∧
        r1.completed_files.length ≤ r0.completed_files.length + rest.length := by
  intro rest
  induction rest with
  | nil =>
      intro i fm c r1 h
      exact ⟨r1, h, rfl, by simp⟩
  | cons f rest1 ih =>
      intro i fm c r1 h
      cases hp : env.present i with
      | false =>
          rw [show runnerLoop env sid sess now i (f :: rest1) fm c = (fm, [], c) by
            simp [runnerLoop, hp]] at h
          exact ⟨r1, h, rfl, Nat.le_add_right _ _⟩
      | true =>
          cases hstep : (process_single_image (env.oracle i) (env.response i)
              sess.target_language sid).2 with
          | false =>
              simp only [runnerLoop, hp, Bool.not_true, Bool.false_eq_true, if_false,
                hstep] at h
              obtain ⟨r0, h0, hfiles, hlen⟩ := ih (i + 1) fm c r1 h
              exact ⟨r0, h0, hfiles, le_trans hlen (by simp)⟩
          | true =>
              simp only [runnerLoop, hp, Bool.not_true, Bool.false_eq_true, if_false,
                hstep, eq_self_iff_true, if_true] at h
              obtain ⟨rm, hm, hfilesm, hlenm⟩ := ih (i + 1) _ (c + 1) r1 h
              cases hoe : env.outputExists i with
              | false =>
                  rw [hoe] at hm
                  simp only [Bool.false_eq_true, if_false] at hm
                  exact ⟨rm, hm, hfilesm, le_trans hlenm (by simp)⟩
              | true =>
                  rw [hoe] at hm
                  simp only [if_true] at hm
                  obtain ⟨r0, h0, hfiles0, hlen0⟩ :=
                    add_completed_file_lookup fm now sid f.original_name
                      (sess.output_folder ++ "/" ++ outputName f.original_name) rm hm
                  refine ⟨r0, h0, hfilesm.trans hfiles0, ?_⟩
                  calc r1.completed_files.length
                      ≤ rm.completed_files.length + rest1.length := hlenm
                    _ ≤ (r0.completed_files.length + 1) + rest1.length := by omega
                    _ = r0.completed_files.length + (f :: rest1).length := by
                        simp [List.length_cons]; omega

/-- C8: throughout a batch run, after any number i of processed files,
the session record's completed_files list is no longer than its files
list, provided the batch was started from a freshly registered record
(empty completed_files, at least as many record files as batch files). -/
theorem C8_completed_files_bound (env : RunnerEnv) (sid : String) (sess : RunnerSession)
    (now : Int) (fm : FileManagerState) (rec : SessionData)
    (h0 : dictLookup fm.metadata sid = some rec)
    (hcf : rec.completed_files = [])
    (hfiles : sess.files.length ≤ rec.files.length) :
    ∀ (i : Nat) (r : SessionData),
      dictLookup (runnerLoop env sid sess now 0 (sess.files.take i) fm
          0).1.metadata sid = some r →
      r.completed_files.length ≤ r.files.length := by
  intro i r h
  obtain ⟨r0, h0x, hfilesx, hlenx⟩ :=
    runnerLoop_lookup_bound env sid sess now (sess.files.take i) 0 fm 0 r h
  rw [h0] at h0x
  have hreq : r0 = rec := Option.some.inj h0x.symm
  have hcf0 : r0.completed_files = [] := by rw [hreq, hcf]
  have hfiles0 : sess.files.length ≤ r0.files.length := by rw [hreq]; exact hfiles
  rw [hfilesx]
  calc r.completed_files.length
      ≤ r0.completed_files.length + (sess.files.take i).length := hlenx
    _ = (sess.files.take i).length := by rw [hcf0]; simp
    _ ≤ sess.files.length := by
        rw [List.length_take]
        omega
    _ ≤ r0.files.length := hfiles0

/-- C8 witness: a one-file batch on the freshly registered session b. -/
theorem C8_completed_files_bound_witness :
    dictLookup fmB.metadata "b" = some recB ∧
    recB.completed_files = [] ∧
    sessB.files.length ≤ recB.files.length ∧
    (dictLookup (runnerLoop envAlwaysPresent "b" sessB 25 0 (sessB.files.take 1) fmB
        0).1.metadata "b" = some recB → recB.completed_files.length ≤ recB.files.length) :=
  ⟨by decide, by decide, by decide,
   C8_completed_files_bound envAlwaysPresent "b" sessB 25 fmB recB (by decide) (by decide)
     (by decide) 1 recB⟩

/-! Lemmas for idempotence of the retention sweep under failure-free
deletions. -/

theorem deleteSessionDir_nofail (l : DirListing) (n : String) (freed : Nat)
    (hl : ∀ e ∈ l, e.deleteFails = false) :
    deleteSessionDir false l n freed =
      Except.ok (l.filter (fun x => x.name ≠ n), freed) := by
  unfold deleteSessionDir
  by_cases hex : existsDir l n
  · rw [if_pos hex]
    simp only [Bool.not_false, if_true]
    unfold rmtree
    cases hf : l.find? (fun e => e.name = n) with
    | none => simp [existsDir, hf] at hex
    | some e =>
        have hd : e.deleteFails = false := hl e (List.mem_of_find?_eq_some hf)
        simp only [hd, Bool.false_eq_true, if_false]
        rw [get_dir_size_filter_ne_self]
        rfl
  · rw [if_neg hex]
    have hf : l.find? (fun e => e.name = n) = none := by
      cases hff : l.find? (fun e => e.name = n) with
      | none => rfl
      | some e => simp [existsDir, hff] at hex
    have hid : l.filter (fun x => x.name ≠ n) = l := by
      rw [List.filter_eq_self]
      intro a ha
      have := List.find?_eq_none.mp hf a ha
      simpa using this
    rw [hid]

theorem cleanupOneSession_nofail (st : CState) (sid : String)
    (hu : ∀ e ∈ st.uploads, e.deleteFails = false)
    (ho : ∀ e ∈ st.output, e.deleteFails = false) :
    cleanupOneSession false st sid =
      { metadata := dictDelete st.metadata sid,
        uploads := st.uploads.filter (fun x => x.name ≠ sid),
        output := st.output.filter (fun x => x.name ≠ sid),
        result := { st.result with
          deleted_sessions := st.result.deleted_sessions ++ [sid] } } := by
  unfold cleanupOneSession
  rw [deleteSessionDir_nofail st.uploads sid st.result.freed_space hu]
  dsimp only
  rw [deleteSessionDir_nofail st.output sid st.result.freed_space ho]
  rfl

theorem sessionPhase_nofail_subsets (L : List String) :
    ∀ st : CState,
      (∀ e ∈ st.uploads, e.deleteFails = false) →
      (∀ e ∈ st.output, e.deleteFails = false) →
      (∀ p ∈ (sessionPhase false L st).metadata, p ∈ st.metadata ∧ p.1 ∉ L) ∧
      (∀ e ∈ (sessionPhase false L st).uploads, e ∈ st.uploads) ∧
      (∀ e ∈ (sessionPhase false L st).output, e ∈ st.output) := by
  induction L with
  | nil =>
      intro st hu ho
      exact ⟨fun p hp => ⟨hp, by simp⟩, fun e he => he, fun e he => he⟩
  | cons a L1 ih =>
      intro st hu ho
      have hstep := cleanupOneSession_nofail st a hu ho
      have hu1 : ∀ e ∈ (cleanupOneSession false st a).uploads, e.deleteFails = false := by
        rw [hstep]
        intro e he
        exact hu e (List.mem_of_mem_filter he)
      have ho1 : ∀ e ∈ (cleanupOneSession false st a).output, e.deleteFails = false := by
        rw [hstep]
        intro e he
        exact ho e (List.mem_of_mem_filter he)
      obtain ⟨h1, h2, h3⟩ := ih (cleanupOneSession false st a) hu1 ho1
      refine ⟨?_, ?_, ?_⟩
      · intro p hp
        obtain ⟨hp1, hp2⟩ := h1 p hp
        rw [hstep] at hp1
        have hmem := List.mem_of_mem_filter hp1
        have hne : p.1 ≠ a := by
          have := List.of_mem_filter hp1
          simpa using this
        exact ⟨hmem, by simp [hne, hp2]⟩
      · intro e he
        have := h2 e he
        rw [hstep] at this
        exact List.mem_of_mem_filter this
      · intro e he
        have := h3 e he
        rw [hstep] at this
        exact List.mem_of_mem_filter this

theorem orphanPhase_mem (ids : List String) (root : String) (cutoff : Int) :
    ∀ (listing : DirListing) (cur : DirListing) (res : CleanupResult),
      ∀ e ∈ (orphanPhase false ids root cutoff (cur, res) listing).1,
        e ∈ cur ∧ (e ∈ listing →
          (e.name ∈ ids ∨ ¬ e.ctime < cutoff ∨ e.deleteFails = true)) := by
  intro listing
  induction listing with
  | nil =>
      intro cur res e he
      exact ⟨he, by simp⟩
  | cons a rest ih =>
      intro cur res e he
      have he2 : e ∈ (orphanPhase false ids root cutoff
          ((orphanStep false ids root cutoff (cur, res) a).1,
           (orphanStep false ids root cutoff (cur, res) a).2) rest).1 := by
        rw [Prod.mk.eta]
        exact he
      obtain ⟨hin, himp⟩ := ih (orphanStep false ids root cutoff (cur, res) a).1
        (orphanStep false ids root cutoff (cur, res) a).2 e he2
      have hin_cur : e ∈ cur := by
        by_cases hc1 : a.name ∈ ids
        · simpa [orphanStep, hc1] using hin
        · by_cases hc2 : a.ctime < cutoff
          · cases hc3 : a.deleteFails with
            | true => simpa [orphanStep, hc1, hc2, hc3] using hin
            | false =>
                simp [orphanStep, hc1, hc2, hc3] at hin
                exact hin.1
          · simpa [orphanStep, hc1, hc2] using hin
      refine ⟨hin_cur, ?_⟩
      intro hmem
      rcases List.mem_cons.mp hmem with hEa | hmem2
      · subst hEa
        by_cases hc1 : e.name ∈ ids
        · exact Or.inl hc1
        · by_cases hc2 : e.ctime < cutoff
          · cases hc3 : e.deleteFails with
            | true => exact Or.inr (Or.inr rfl)
            | false =>
                exfalso
                simp [orphanStep, hc1, hc2, hc3] at hin
          · exact Or.inr (Or.inl hc2)
      · exact himp hmem2

theorem orphanPhase_keep_all (ids : List String) (root : String) (cutoff : Int) :
    ∀ (listing : DirListing) (cur : DirListing) (res : CleanupResult),
      (∀ e ∈ listing, e.name ∈ ids ∨ ¬ e.ctime < cutoff) →
      orphanPhase false ids root cutoff (cur, res) listing = (cur, res) := by
  intro listing
  induction listing with
  | nil => intro cur res h; rfl
  | cons a rest ih =>
      intro cur res h
      have hstep : orphanStep false ids root cutoff (cur, res) a = (cur, res) := by
        rcases h a (List.mem_cons_self a rest) with hc | hc
        · simp [orphanStep, hc]
        · by_cases hc1 : a.name ∈ ids
          · simp [orphanStep, hc1]
          · simp [orphanStep, hc1, hc]
      show orphanPhase false ids root cutoff
        (orphanStep false ids root cutoff (cur, res) a) rest = (cur, res)
      rw [hstep]
      exact ih cur res (fun e he => h e (List.mem_cons_of_mem a he))

theorem cleanup_no_work (meta1 : Metadata) (maxage now : Int) (up1 out1 : DirListing)
    (hnoexp : meta1.filter (fun p => p.2.created_at < now - maxage) = [])
    (hkeepUp : ∀ e ∈ up1,
      e.name ∈ meta1.map (fun p => p.1) ∨ ¬ e.ctime < now - maxage)
    (hkeepOut : ∀ e ∈ out1,
      e.name ∈ meta1.map (fun p => p.1) ∨ ¬ e.ctime < now - maxage) :
    cleanup_old_files { metadata := meta1, max_age_hours := maxage } now up1 out1 false =
      { fm := { metadata := meta1, max_age_hours := maxage }, uploads := up1,
        output := out1, result := emptyCleanupResult } := by
  unfold cleanup_old_files
  dsimp only
  rw [hnoexp]
  dsimp only [List.map_nil, sessionPhase, List.foldl]
  rw [orphanPhase_keep_all (meta1.map (fun p => p.1)) "uploads/" (now - maxage)
    up1 up1 emptyCleanupResult hkeepUp]
  dsimp only
  rw [orphanPhase_keep_all (meta1.map (fun p => p.1)) "output/" (now - maxage)
    out1 out1 emptyCleanupResult hkeepOut]

/-- C7: when every directory on disk is deletable, running the sweep a
second time right after a first non-dry run is a no-op: state unchanged
and a report with no deleted sessions, no deleted paths, no freed space
and no errors. -/
theorem C7_cleanup_idempotent (fm : FileManagerState) (now : Int) (up out : DirListing)
    (hu : ∀ e ∈ up, e.deleteFails = false) (ho : ∀ e ∈ out, e.deleteFails = false) :
    cleanup_old_files (cleanup_old_files fm now up out false).fm now
        (cleanup_old_files fm now up out false).uploads
        (cleanup_old_files fm now up out false).output false =
      { fm := (cleanup_old_files fm now up out false).fm,
        uploads := (cleanup_old_files fm now up out false).uploads,
        output := (cleanup_old_files fm now up out false).output,
        result := emptyCleanupResult } := by
  have h1 : (cleanup_old_files fm now up out false).fm.metadata.filter
      (fun p => p.2.created_at < now - fm.max_age_hours) = [] := by
    have hsub := (sessionPhase_nofail_subsets
      ((fm.metadata.filter (fun p => p.2.created_at < now - fm.max_age_hours)).map
        (fun p => p.1))
      { metadata := fm.metadata, uploads := up, output := out,
        result := emptyCleanupResult } hu ho).1
    rw [List.filter_eq_nil_iff]
    intro p hp
    obtain ⟨hpm, hpnot⟩ := hsub p hp
    simp only [decide_eq_true_eq]
    intro hlt
    exact hpnot (List.mem_map_of_mem (fun p => p.1)
      (List.mem_filter.mpr ⟨hpm, by simpa using hlt⟩))
  have h2 : ∀ e ∈ (cleanup_old_files fm now up out false).uploads,
      e.name ∈ (cleanup_old_files fm now up out false).fm.metadata.map (fun p => p.1) ∨
        ¬ e.ctime < now - fm.max_age_hours := by
    intro e he
    simp only [cleanup_old_files] at he
    obtain ⟨hcur, himp⟩ := orphanPhase_mem _ _ _ _ _ _ e he
    rcases himp hcur with h | h | h
    · exact Or.inl h
    · exact Or.inr h
    · have hueq : e.deleteFails = false := hu e
        ((sessionPhase_nofail_subsets _
          { metadata := fm.metadata, uploads := up, output := out,
            result := emptyCleanupResult } hu ho).2.1 e hcur)
      rw [hueq] at h
      exact absurd h (by simp)
  have h3 : ∀ e ∈ (cleanup_old_files fm now up out false).output,
      e.name ∈ (cleanup_old_files fm now up out false).fm.metadata.map (fun p => p.1) ∨
        ¬ e.ctime < now - fm.max_age_hours := by
    intro e he
    simp only [cleanup_old_files] at he
    obtain ⟨hcur, himp⟩ := orphanPhase_mem _ _ _ _ _ _ e he
    rcases himp hcur with h | h | h
    · exact Or.inl h
    · exact Or.inr h
    · have hoeq : e.deleteFails = false := ho e
        ((sessionPhase_nofail_subsets _
          { metadata := fm.metadata, uploads := up, output := out,
            result := emptyCleanupResult } hu ho).2.2 e hcur)
      rw [hoeq] at h
      exact absurd h (by simp)
  exact cleanup_no_work (cleanup_old_files fm now up out false).fm.metadata
    fm.max_age_hours now (cleanup_old_files fm now up out false).uploads
    (cleanup_old_files fm now up out false).output h1 h2 h3

/-- C7 witness: one expired deletable session with its 100-byte uploads
directory. -/
theorem C7_cleanup_idempotent_witness :
    (∀ e ∈ [upS], e.deleteFails = false) ∧
    cleanup_old_files (cleanup_old_files fmS 25 [upS] [] false).fm 25
        (cleanup_old_files fmS 25 [upS] [] false).uploads
        (cleanup_old_files fmS 25 [upS] [] false).output false =
      { fm := (cleanup_old_files fmS 25 [upS] [] false).fm,
        uploads := (cleanup_old_files fmS 25 [upS] [] false).uploads,
        output := (cleanup_old_files fmS 25 [upS] [] false).output,
        result := emptyCleanupResult } :=
  ⟨by decide,
   C7_cleanup_idempotent fmS 25 [upS] [] (by decide) (by decide)⟩
